import Mathlib

/-!
Shallow embedding of the nynoflow conversation-memory and token-budget
subsystem: the message data model (chats/chat_objects.py), the token-bounded
cutoff (memory/base_memory.py and chats/chat.py), the OpenAI tokenizer cost
formula (tokenizers/openai_tokenizer.py), the memory backends
(memory/base_file_memory.py, memory/redis_memory.py,
memory/sqlalchemy_memory.py, memory/gcp_memory.py, memory/s3_memory.py), and
the orchestrator control loops (flow/flow.py, chats/chat.py).

External collaborators (tiktoken encoding lengths, the provider HTTP call,
the blob, key and row stores) are modelled as explicit parameters or small
state types that follow the documented contract of the client library in use.
-/

namespace Nynoflow

/-- Role of a chat message, from the ChatMessage class in
chats/chat_objects.py: one of user, assistant, system, function. -/
inductive Role where
  | user
  | assistant
  | system
  | function
deriving DecidableEq, Repr

/-- String form of a role, as stored in the role field of the python object;
it is what the tokenizer encodes for the role. -/
def roleStr : Role → String
  | Role.user => "user"
  | Role.assistant => "assistant"
  | Role.system => "system"
  | Role.function => "function"

/-- Chat message record, from the ChatMessage attrs class in
chats/chat_objects.py. The uuid4 string field named by an underscore and id
is modelled as a natural number identifier msgId: the source guarantees it
is assigned at creation and unique, which the theorems below take as
hypotheses where needed. Equality of two messages is field by field, as in
the attrs generated equality used by python list remove. -/
structure ChatMessage where
  providerId : String
  content : String
  role : Role
  temporary : Bool := false
  msgId : Nat := 0
deriving DecidableEq, Repr

/-- External tokenizer collaborator: token_count over a message list, as used
by BaseMemory.get_message_history_upto_token_limit. -/
structure Tokenizer where
  tokenCount : List ChatMessage → Int

/-- Cost the cutoff algorithm charges for one message: the tokenizer applied
to the singleton list holding that message, exactly the call
tokenizer.token_count applied to a one element list in
memory/base_memory.py line 46. -/
def perMessageCost (tk : Tokenizer) (m : ChatMessage) : Int :=
  tk.tokenCount [m]

/-- Model of OpenAITokenizer._calculate_messages_tokens in
tokenizers/openai_tokenizer.py: each message costs tokens_per_message plus
the encoded length of its content plus the encoded length of its role, and
3 tokens of reply priming are added once per count. The tiktoken encoding is
the external collaborator, modelled by the function enc giving encoded
lengths of strings. tokens_per_message is 4 for gpt-3.5-turbo-0301 and 3
otherwise. -/
def openAITokenCount (enc : String → Nat) (tokensPerMessage : Int)
    (messages : List ChatMessage) : Int :=
  (messages.map (fun m =>
    tokensPerMessage + (enc m.content : Int) + (enc (roleStr m.role) : Int))).sum + 3

/-- The OpenAI tokenizer packaged as a Tokenizer collaborator. -/
def openAITokenizer (enc : String → Nat) (tokensPerMessage : Int) : Tokenizer :=
  { tokenCount := openAITokenCount enc tokensPerMessage }

/-- Loop body of BaseMemory.get_message_history_upto_token_limit
(memory/base_memory.py lines 43 to 50): the list argument is the reversed
message history still to walk, the integer is the running total token_count.
For each message the per message cost is added to the running total; when
the total exceeds the token limit the loop breaks, discarding the candidate
and everything older; otherwise the message is appended to the result. -/
def getUptoLimitAux (tk : Tokenizer) (tokenLimit : Int) :
    List ChatMessage → Int → List ChatMessage
  | [], _ => []
  | msg :: rest, runningTotal =>
    let total := runningTotal + tk.tokenCount [msg]
    if tokenLimit < total then []
    else msg :: getUptoLimitAux tk tokenLimit rest total

/-- BaseMemory.get_message_history_upto_token_limit: iterate over the
reversed message history accumulating messages within the token limit. The
accumulated list is returned as built, in iteration order, which is most
recent message first; the source has no final reverse. -/
def getMessageHistoryUptoTokenLimit (tk : Tokenizer) (tokenLimit : Int)
    (messageHistory : List ChatMessage) : List ChatMessage :=
  getUptoLimitAux tk tokenLimit messageHistory.reverse 0

/-- Example message used in concrete evaluations: a short user message. -/
def exMsgA : ChatMessage :=
  { providerId := "chatgpt", content := "aaaa", role := Role.user, msgId := 1 }

/-- Example message used in concrete evaluations: a short assistant reply. -/
def exMsgB : ChatMessage :=
  { providerId := "chatgpt", content := "bb", role := Role.assistant, msgId := 2 }

/-- Example message used in concrete evaluations: a second user message. -/
def exMsgC : ChatMessage :=
  { providerId := "chatgpt", content := "cc", role := Role.user, msgId := 3 }

/-- Concrete tokenizer instance for evaluations: encoded length is string
length, tokens_per_message is 3 as for every model other than
gpt-3.5-turbo-0301. -/
def exTokenizer : Tokenizer := openAITokenizer String.length 3

/-- Combined state of a memory provider as BaseMemory maintains it: the in
memory message_history list together with the backend copy of the log. The
backend copy models the messages list of the persisted document of the file
like backends, to which every mutation is mirrored
(memory/base_memory.py together with memory/base_file_memory.py). -/
structure MemoryState where
  messageHistory : List ChatMessage
  backend : List ChatMessage
deriving DecidableEq, Repr

/-- BaseMemory.insert_message: append to the in memory list, then persist the
same append to the backend. -/
def insertMessage (s : MemoryState) (m : ChatMessage) : MemoryState :=
  { messageHistory := s.messageHistory ++ [m], backend := s.backend ++ [m] }

/-- BaseMemory.remove_message: python list remove drops the first occurrence
equal to the message, from the in memory list and from the backend list. -/
def removeMessage (s : MemoryState) (m : ChatMessage) : MemoryState :=
  { messageHistory := s.messageHistory.erase m, backend := s.backend.erase m }

/-- Loop of BaseMemory.clean_temporary_message_history: iterate over a copy
of the in memory list taken before the loop, removing every message marked
temporary from the live state. -/
def cleanTemporaryAux (s : MemoryState) : List ChatMessage → MemoryState
  | [] => s
  | m :: rest =>
    if m.temporary then cleanTemporaryAux (removeMessage s m) rest
    else cleanTemporaryAux s rest

/-- BaseMemory.clean_temporary_message_history: remove every temporary
message, iterating over a copy of the current in memory list. -/
def cleanTemporaryMessageHistory (s : MemoryState) : MemoryState :=
  cleanTemporaryAux s s.messageHistory

/-- JSON document persisted by the file like backends, from
FileMemoryStructure in memory/base_file_memory.py. The created_at and
updated_at timestamps do not take part in any message round trip and are
omitted. -/
structure FileDoc where
  chatId : String
  messages : List ChatMessage
deriving DecidableEq, Repr

/-- Errors surfaced by the storage collaborators: FileNotFoundError from a
read of an absent memory file, and the NotFound error of a blob delete. -/
inductive BackendErr where
  | fileNotFound
  | notFound
deriving DecidableEq, Repr

/-- State of a file like memory provider: the chat id, the in memory list and
the blob store content, which is none while no memory file exists. -/
structure FileMemory where
  chatId : String
  messageHistory : List ChatMessage
  store : Option FileDoc
deriving DecidableEq, Repr

/-- BaseFileMemory.load_message_history: parse the memory file and replace
the in memory history with its messages; when reading raises
FileNotFoundError, write a fresh empty document instead and leave the in
memory list as it is. -/
def fileLoadMessageHistory (s : FileMemory) : FileMemory :=
  match s.store with
  | some doc => { s with messageHistory := doc.messages }
  | none => { s with store := some { chatId := s.chatId, messages := [] } }

/-- BaseFileMemory._insert_message_backend: read the document, raising when
the file is absent (the source does not catch that case here), append the
message to its list and write the document back. -/
def fileInsertMessageBackend (s : FileMemory) (m : ChatMessage) :
    Except BackendErr FileMemory :=
  match s.store with
  | some doc =>
      Except.ok { s with store := some { doc with messages := doc.messages ++ [m] } }
  | none => Except.error BackendErr.fileNotFound

/-- BaseMemory.insert_message on a file backend: append to the in memory
list, then persist the same append through the backend write. -/
def fileInsertMessage (s : FileMemory) (m : ChatMessage) :
    Except BackendErr FileMemory :=
  fileInsertMessageBackend { s with messageHistory := s.messageHistory ++ [m] } m

/-- State of the redis memory provider: the in memory list plus the list
stored at the chat id key. lpush prepends, so the stored list keeps the most
recently pushed element first; an absent key reads as the empty list. -/
structure RedisMemoryState where
  messageHistory : List ChatMessage
  stored : List ChatMessage
deriving DecidableEq, Repr

/-- BaseMemory.insert_message on the redis backend: append to the in memory
list and lpush onto the stored list (memory/redis_memory.py). -/
def redisInsertMessage (s : RedisMemoryState) (m : ChatMessage) : RedisMemoryState :=
  { messageHistory := s.messageHistory ++ [m], stored := m :: s.stored }

/-- RedisMemory.load_message_history: lrange returns the whole stored list,
most recent first, and the source reverses it to restore chronological
order. -/
def redisLoadMessageHistory (s : RedisMemoryState) : RedisMemoryState :=
  { s with messageHistory := s.stored.reverse }

/-- RedisMemory.cleanup: delete the chat id key; deleting an absent key is a
no-op of the store. The in memory list is not touched by this method. -/
def redisCleanup (s : RedisMemoryState) : RedisMemoryState :=
  { s with stored := [] }

/-- One row of the SQL backend table, from create_message_record_table in
memory/sqlalchemy_memory.py: primary key id (the message id), the chat id
and the serialized message payload. -/
structure SqlRow where
  rowId : Nat
  chatId : String
  message : ChatMessage
deriving DecidableEq, Repr

/-- State of the SQLAlchemy memory provider: chat id, in memory list and the
table rows in insertion order. -/
structure SqlMemoryState where
  chatId : String
  messageHistory : List ChatMessage
  rows : List SqlRow
deriving DecidableEq, Repr

/-- BaseMemory.insert_message on the SQL backend: append to the in memory
list and insert one row keyed by the message id and chat id. -/
def sqlInsertMessage (s : SqlMemoryState) (m : ChatMessage) : SqlMemoryState :=
  { s with
      messageHistory := s.messageHistory ++ [m],
      rows := s.rows ++ [{ rowId := m.msgId, chatId := s.chatId, message := m }] }

/-- SQLAlchemyMemory.load_message_history: select the rows of this chat id
and take their message payloads. The select has no order clause; the row
store collaborator is modelled as returning rows in insertion order, which
is what the backing engines of the tests do. -/
def sqlLoadMessageHistory (s : SqlMemoryState) : SqlMemoryState :=
  { s with
      messageHistory :=
        (s.rows.filter (fun r => r.chatId == s.chatId)).map SqlRow.message }

/-- SQLAlchemyMemory.cleanup: delete every row of this chat id; deleting zero
rows succeeds. The in memory list is not touched by this method. -/
def sqlCleanup (s : SqlMemoryState) : SqlMemoryState :=
  { s with rows := s.rows.filter (fun r => !(r.chatId == s.chatId)) }

/-- State of the GCP blob memory: the in memory list plus the blob content,
none when the blob is absent. -/
structure GcpMemoryState where
  messageHistory : List ChatMessage
  blob : Option FileDoc
deriving DecidableEq, Repr

/-- GcpBlobMemory._remove_memory_file calls Blob.delete of the google cloud
storage client; the library documents delete as propagating a NotFound error
when the blob does not exist, and deleting an existing blob leaves the store
without it. -/
def gcpRemoveMemoryFile (blob : Option FileDoc) : Except BackendErr (Option FileDoc) :=
  match blob with
  | some _ => Except.ok none
  | none => Except.error BackendErr.notFound

/-- BaseFileMemory.cleanup on the GCP backend: remove the memory file, then
reset the in memory list; an error from the remove propagates before the
reset runs, leaving the state unchanged. -/
def gcpCleanup (s : GcpMemoryState) : Except BackendErr GcpMemoryState :=
  match gcpRemoveMemoryFile s.blob with
  | Except.ok b => Except.ok { messageHistory := [], blob := b }
  | Except.error e => Except.error e

/-- State of the S3 memory: the in memory list plus the object content,
none when the key is absent. -/
structure S3MemoryState where
  messageHistory : List ChatMessage
  blob : Option FileDoc
deriving DecidableEq, Repr

/-- BaseFileMemory.cleanup on the S3 backend: delete_object succeeds whether
or not the key exists, then the in memory list is reset. -/
def s3Cleanup (_s : S3MemoryState) : S3MemoryState :=
  { messageHistory := [], blob := none }

/-- Concrete file backend state for evaluations, synchronized with its
persisted document. -/
def exFileMemory : FileMemory :=
  { chatId := "c", messageHistory := [exMsgA],
    store := some { chatId := "c", messages := [exMsgA] } }

/-- Concrete redis backend state for evaluations, synchronized with the
stored list, which redis keeps most recent first. -/
def exRedisMemory : RedisMemoryState :=
  { messageHistory := [exMsgA], stored := [exMsgA] }

/-- Concrete SQL backend state for evaluations, synchronized with the table
rows of its chat id. -/
def exSqlMemory : SqlMemoryState :=
  { chatId := "c", messageHistory := [exMsgA],
    rows := [{ rowId := 1, chatId := "c", message := exMsgA }] }

/-- Concrete GCP backend state for evaluations: one message in memory and an
existing blob. -/
def exGcpMemory : GcpMemoryState :=
  { messageHistory := [exMsgA],
    blob := some { chatId := "c", messages := [exMsgA] } }

/-- Concrete GCP backend state after a successful cleanup: empty memory and
no blob. -/
def exGcpMemoryEmpty : GcpMemoryState := { messageHistory := [], blob := none }

/-- A raised ServiceUnavailableError. The cause field models the python
exception cause chain: the provider raises the error with the underlying
client error, numbered abstractly, as its cause. -/
structure ServiceUnavailable where
  cause : Option Nat
deriving DecidableEq, Repr

/-- Loop of Flow._prompt_provider_with_retry (flow/flow.py lines 339 to 349):
one provider call per iteration of range over 1 to retries_on_service_error
plus 1; a service unavailable failure is warned about and retried, and once
the attempts are exhausted a fresh ServiceUnavailableError is raised from
the cause of the last failure. The provider call is modelled as a function
of the attempt index so a run can be any sequence of outcomes; the second
component of the result counts the provider invocations made. -/
def retryLoopAux (comp : Nat → Except ServiceUnavailable String) :
    Nat → Nat → Option Nat → Except ServiceUnavailable String × Nat
  | 0, _, lastCause => (Except.error { cause := lastCause }, 0)
  | attemptsLeft + 1, idx, _ =>
    match comp idx with
    | Except.ok response => (Except.ok response, 1)
    | Except.error e =>
      let r := retryLoopAux comp attemptsLeft (idx + 1) e.cause
      (r.1, r.2 + 1)

/-- Flow._prompt_provider_with_retry: up to retries plus one provider calls
starting at attempt index 0. -/
def promptProviderWithRetry (comp : Nat → Except ServiceUnavailable String)
    (retries : Nat) : Except ServiceUnavailable String × Nat :=
  retryLoopAux comp (retries + 1) 0 none

/-- Flow.completion (flow/flow.py lines 269 to 318): construct and insert
the user message, compute the token bounded cutoff of the history, which
happens before the try block, call the provider through the retry loop, and
on success insert the assistant message; an exception inside the try block
removes the just inserted user message again and propagates. The fresh uuid
of each constructed message is modelled by the explicit identifier
arguments. -/
def flowCompletion (tk : Tokenizer) (tokenLimit tokenOffset : Int) (pid : String)
    (comp : Nat → Except ServiceUnavailable String) (retries : Nat)
    (prompt : String) (userId asstId : Nat) (s0 : MemoryState) :
    Except ServiceUnavailable String × MemoryState :=
  let userMsg : ChatMessage :=
    { providerId := pid, content := prompt, role := Role.user, msgId := userId }
  let s1 := insertMessage s0 userMsg
  let _cut := getMessageHistoryUptoTokenLimit tk (tokenLimit - tokenOffset) s1.messageHistory
  match (promptProviderWithRetry comp retries).1 with
  | Except.ok response =>
    (Except.ok response,
     insertMessage s1
       { providerId := pid, content := response, role := Role.assistant, msgId := asstId })
  | Except.error e => (Except.error e, removeMessage s1 userMsg)

/-- Errors crossing Chat.completion: the untyped IndexError raised by pop on
an empty list inside the cutoff, and the service unavailable condition of
the retry loop. -/
inductive ChatErr where
  | indexError
  | serviceUnavailable
deriving DecidableEq, Repr

/-- Chat._cutoff_message_history (chats/chat.py lines 383 to 401): while the
token limit minus the token count of the candidate history leaves less than
token_offset, pop the oldest message; pop on the empty list raises
IndexError. The loop works on a deep copy, so the stored history is
untouched. The provider _num_tokens function is a parameter. -/
def chatCutoffMessageHistory (numTokens : List ChatMessage → Int)
    (tokenLimit tokenOffset : Int) :
    List ChatMessage → Except ChatErr (List ChatMessage)
  | [] =>
    if tokenLimit - numTokens [] < tokenOffset then Except.error ChatErr.indexError
    else Except.ok []
  | m :: rest =>
    if tokenLimit - numTokens (m :: rest) < tokenOffset then
      chatCutoffMessageHistory numTokens tokenLimit tokenOffset rest
    else Except.ok (m :: rest)

/-- ChatgptProvider._num_tokens with
ChatgptTiktokenTokenizer.token_count (utils/tokenizers/openai_tokenizer.py):
every converted message carries a role and a content entry, so it costs
tokens_per_message plus the encoded lengths of role and content, and 3
priming tokens are added once per count. -/
def chatgptNumTokens (enc : String → Nat) (tokensPerMessage : Int)
    (messages : List ChatMessage) : Int :=
  (messages.map (fun m =>
    tokensPerMessage + (enc (roleStr m.role) : Int) + (enc m.content : Int))).sum + 3

/-- Chat.completion (chats/chat.py lines 272 to 323): append the user
message to the history, compute the cutoff, which happens before the try
block so its exceptions skip the rollback, call the provider, and append
the assistant message on success; an exception inside the try block removes
the user message again. The provider outcome is a parameter. -/
def chatCompletion (numTokens : List ChatMessage → Int)
    (tokenLimit tokenOffset : Int) (pid prompt : String) (userId : Nat)
    (providerResult : Except ChatErr String) (asstId : Nat)
    (history : List ChatMessage) : Except ChatErr String × List ChatMessage :=
  let userMsg : ChatMessage :=
    { providerId := pid, content := prompt, role := Role.user, msgId := userId }
  let h1 := history ++ [userMsg]
  match chatCutoffMessageHistory numTokens tokenLimit tokenOffset h1 with
  | Except.error e => (Except.error e, h1)
  | Except.ok _cut =>
    match providerResult with
    | Except.ok response =>
      (Except.ok response,
       h1 ++ [{ providerId := pid, content := response, role := Role.assistant,
                msgId := asstId }])
    | Except.error e => (Except.error e, h1.erase userMsg)

/-- The user message Chat.completion inserts for the prompt hi in the
concrete runs below. -/
def exUserMsgHi : ChatMessage :=
  { providerId := "chatgpt", content := "hi", role := Role.user, msgId := 5 }

/-- A python function object, identified by its qualified name and its
address within the process; str applied to a function object formats both,
deterministically for a fixed object. -/
structure PyFunctionObject where
  qualName : String
  addr : Nat
deriving DecidableEq, Repr

/-- The uuid4 function object of the uuid module: one fixed object for the
whole process. -/
def uuid4FunctionObject : PyFunctionObject :=
  { qualName := "uuid4", addr := 140234567 }

/-- Model of python str applied to a function object: the angle bracket repr
built from the name and the address, a pure function of the object. -/
def pyStrOfFunctionObject (f : PyFunctionObject) : String :=
  "<function " ++ f.qualName ++ " at " ++ toString f.addr ++ ">"

/-- Flow.chat_id default factory (flow/flow.py line 41): the factory lambda
returns str applied to the uuid4 function object itself, never calling it,
so the fresh uuid stream is ignored. The argument stands for the uuid the
factory would have consumed had it called uuid4. -/
def flowDefaultChatId (_uuidDraw : Nat) : String :=
  pyStrOfFunctionObject uuid4FunctionObject

/-- Constructor relevant fields of Flow: the provider ids and the chat id
produced by the default factory. -/
structure FlowIds where
  providerIds : List String
  chatId : String
deriving DecidableEq, Repr

/-- Construction of a Flow without an explicit chat id: the default factory
runs once at construction, with the uuid draw it would have consumed. -/
def mkFlowWithDefaultChatId (providerIds : List String) (uuidDraw : Nat) : FlowIds :=
  { providerIds := providerIds, chatId := flowDefaultChatId uuidDraw }

/-- An InvalidResponseError raised by an auto fixer, carrying its string
form, which the loop assigns to the prompt variable of the next attempt. -/
structure InvalidResponse where
  msg : String
deriving DecidableEq, Repr

/-- Trace of one run of Flow.completion_with_auto_fixer: the outcome, the
memory state after the run, and for each attempt made the message list that
was passed to the provider. -/
structure FixRun (α : Type) where
  result : Except InvalidResponse (String × α)
  state : MemoryState
  sent : List (List ChatMessage)

/-- The assistant message Flow.completion_with_auto_fixer constructs for a
response: created with temporary false and, on the failure path, reassigned
temporary true before insertion. -/
def assistantMsg (pid response : String) (temp : Bool) (idNum : Nat) : ChatMessage :=
  { providerId := pid, content := response, role := Role.assistant,
    temporary := temp, msgId := idNum }

/-- Loop of Flow.completion_with_auto_fixer (flow/flow.py lines 236 to 267).
Each attempt computes the cutoff of the current history with budget
token_limit minus token_offset and passes it to the provider through the
retry layer, whose response for attempt i is the parameter resp i. The auto
fixer either accepts the response, upon which the assistant message is
inserted, the temporary messages are cleaned from history and backend and
the pair is returned, or raises InvalidResponse, upon which the prompt
variable is reassigned to the string form of the error, the assistant
message is marked temporary and inserted, and the loop retries. The
reassigned prompt variable is never read by the source, which is why the
loop ignores it: the provider only ever receives the cutoff history. On
exhaustion a fresh InvalidResponseError is raised from the cause of the
last one, modelled with an empty message. -/
def autoFixerLoop {α : Type} (tk : Tokenizer) (tokenLimit tokenOffset : Int)
    (pid : String) (resp : Nat → String)
    (fixer : String → Except InvalidResponse α) (asstIds : Nat → Nat) :
    Nat → Nat → String → MemoryState → FixRun α
  | 0, _, _, s => { result := Except.error { msg := "" }, state := s, sent := [] }
  | attemptsLeft + 1, i, _currentPrompt, s =>
    let sentNow := getMessageHistoryUptoTokenLimit tk (tokenLimit - tokenOffset)
      s.messageHistory
    let response := resp i
    match fixer response with
    | Except.ok v =>
      let s2 := insertMessage s (assistantMsg pid response false (asstIds i))
      { result := Except.ok (response, v),
        state := cleanTemporaryMessageHistory s2,
        sent := [sentNow] }
    | Except.error e =>
      let s2 := insertMessage s (assistantMsg pid response true (asstIds i))
      let r := autoFixerLoop tk tokenLimit tokenOffset pid resp fixer asstIds
        attemptsLeft (i + 1) e.msg s2
      { result := r.result, state := r.state, sent := sentNow :: r.sent }

/-- Flow.completion_with_auto_fixer: insert the initial user message once,
then run the attempt loop, retries plus one attempts at most, with the
initial prompt as the prompt variable. -/
def flowCompletionWithAutoFixer {α : Type} (tk : Tokenizer)
    (tokenLimit tokenOffset : Int) (pid : String) (resp : Nat → String)
    (fixer : String → Except InvalidResponse α) (userId : Nat)
    (asstIds : Nat → Nat) (retries : Nat) (prompt : String)
    (s0 : MemoryState) : FixRun α :=
  let userMsg : ChatMessage :=
    { providerId := pid, content := prompt, role := Role.user, msgId := userId }
  autoFixerLoop tk tokenLimit tokenOffset pid resp fixer asstIds (retries + 1) 0
    prompt (insertMessage s0 userMsg)

/-- Append the same messages to the in memory list and to the backend. -/
def appendBoth (s : MemoryState) (l : List ChatMessage) : MemoryState :=
  { messageHistory := s.messageHistory ++ l, backend := s.backend ++ l }

/-- The temporary assistant messages inserted by k failed attempts starting
at attempt index i. -/
def tempSegment (pid : String) (resp : Nat → String) (asstIds : Nat → Nat)
    (i k : Nat) : List ChatMessage :=
  (List.range k).map (fun j => assistantMsg pid (resp (i + j)) true (asstIds (i + j)))

/-- Concrete provider responses for the auto fixer runs below: the first
attempt answers bad, every later attempt answers good. -/
def exResp : Nat → String := fun i => if i = 0 then "bad" else "good"

/-- Concrete auto fixer for the runs below: it rejects the response bad with
the correction request please fix, and accepts anything else. -/
def exFixer : String → Except InvalidResponse String := fun r =>
  if r = "bad" then Except.error { msg := "please fix" } else Except.ok r

/-- The user message inserted by the auto fixer runs below for the prompt
hello. -/
def exUserHello : ChatMessage :=
  { providerId := "chatgpt", content := "hello", role := Role.user, msgId := 9 }

/-- The temporary assistant message inserted by the failed first attempt in
the runs below. -/
def exBadAsst : ChatMessage := assistantMsg "chatgpt" "bad" true 20

/-- A temporary assistant message left behind in the history by an earlier
exhausted auto fixer run. -/
def exTempOld : ChatMessage :=
  { providerId := "chatgpt", content := "old attempt", role := Role.assistant,
    temporary := true, msgId := 50 }

/-- The user message inserted by the counterexample run below for the prompt
q. -/
def exUserQ : ChatMessage :=
  { providerId := "chatgpt", content := "q", role := Role.user, msgId := 51 }

/-- The successful assistant message of the counterexample run below. -/
def exAsstOk : ChatMessage := assistantMsg "chatgpt" "fine" false 60

/-- The trace of the failing C8 run: a retry budget of 1, a first attempt
rejected with the correction request please fix, a second attempt that
succeeds. -/
def exC8Run : FixRun String :=
  flowCompletionWithAutoFixer exTokenizer 100 16 "chatgpt" exResp exFixer 9
    (fun i => 20 + i) 1 "hello" ⟨[], []⟩

theorem getUptoLimitAux_spec (tk : Tokenizer) (L : Int) :
    ∀ (l : List ChatMessage) (acc : Int),
      (∃ rest, l = getUptoLimitAux tk L l acc ++ rest) ∧
      (getUptoLimitAux tk L l acc ≠ [] →
        acc + ((getUptoLimitAux tk L l acc).map (perMessageCost tk)).sum ≤ L) ∧
      (∀ m rest, l = getUptoLimitAux tk L l acc ++ m :: rest →
        L < acc + ((getUptoLimitAux tk L l acc).map (perMessageCost tk)).sum
            + perMessageCost tk m) := by
  intro l
  induction l with
  | nil =>
    intro acc
    refine ⟨⟨[], rfl⟩, fun h => absurd rfl h, ?_⟩
    intro m rest h
    simp [getUptoLimitAux] at h
  | cons msg rest ih =>
    intro acc
    by_cases hlim : L < acc + tk.tokenCount [msg]
    · have hres : getUptoLimitAux tk L (msg :: rest) acc = [] := by
        simp [getUptoLimitAux, hlim]
      refine ⟨⟨msg :: rest, by simp [hres]⟩, fun h => absurd hres h, ?_⟩
      intro m r h
      rw [hres, List.nil_append] at h
      have hm : m = msg := (List.cons.injEq _ _ _ _ ▸ h).1.symm
      rw [hres]
      simpa [hm, perMessageCost] using hlim
    · have hres : getUptoLimitAux tk L (msg :: rest) acc =
          msg :: getUptoLimitAux tk L rest (acc + tk.tokenCount [msg]) := by
        simp [getUptoLimitAux, hlim]
      obtain ⟨⟨tail, htail⟩, hbudget, hmax⟩ := ih (acc + tk.tokenCount [msg])
      refine ⟨⟨tail, ?_⟩, ?_, ?_⟩
      · rw [hres, List.cons_append, ← htail]
      · intro _
        rw [hres]
        simp only [List.map_cons, List.sum_cons]
        rcases Decidable.em
            (getUptoLimitAux tk L rest (acc + tk.tokenCount [msg]) = []) with he | he
        · rw [he]
          simp only [List.map_nil, List.sum_nil, add_zero]
          have := not_lt.mp hlim
          simp only [perMessageCost]
          linarith
        · have := hbudget he
          simp only [perMessageCost] at this ⊢
          linarith
      · intro m r h
        rw [hres, List.cons_append] at h
        have hrest : rest = getUptoLimitAux tk L rest (acc + tk.tokenCount [msg]) ++ m :: r :=
          (List.cons.injEq _ _ _ _ ▸ h).2
        have := hmax m r hrest
        rw [hres]
        simp only [List.map_cons, List.sum_cons, perMessageCost] at this ⊢
        linarith

/-- C1: for every message history and every token limit L at least 0, the
cutoff returns messages of the history (the result is an initial segment of
the reversed history), the cumulative per message tokenizer cost of the
returned messages is at most L, and the selection is maximal: whenever an
older message of the history remains unselected, adding its cost to the
running total would exceed L. -/
theorem cutoff_within_limit_and_maximal (tk : Tokenizer) (L : Int)
    (history : List ChatMessage) (hL : 0 ≤ L) :
    (∃ rest, history.reverse = getMessageHistoryUptoTokenLimit tk L history ++ rest) ∧
    ((getMessageHistoryUptoTokenLimit tk L history).map (perMessageCost tk)).sum ≤ L ∧
    (∀ m rest,
      history.reverse = getMessageHistoryUptoTokenLimit tk L history ++ m :: rest →
      L < ((getMessageHistoryUptoTokenLimit tk L history).map (perMessageCost tk)).sum
          + perMessageCost tk m) := by
  obtain ⟨hshape, hbudget, hmax⟩ := getUptoLimitAux_spec tk L history.reverse 0
  refine ⟨hshape, ?_, ?_⟩
  · rcases Decidable.em (getUptoLimitAux tk L history.reverse 0 = []) with he | he
    · simp [getMessageHistoryUptoTokenLimit, he, hL]
    · have := hbudget he
      simpa [getMessageHistoryUptoTokenLimit] using this
  · intro m rest h
    have := hmax m rest h
    simpa [getMessageHistoryUptoTokenLimit] using this

/-- Witness for C1: on the history of the three example messages with token
limit 30 the cutoff keeps the two most recent messages (costs 12 and 17, a
total of 29), and taking the oldest message too (cost 14) would exceed 30. -/
theorem cutoff_within_limit_and_maximal_witness :
    (0 : Int) ≤ 30 ∧
    ((∃ rest, ([exMsgA, exMsgB, exMsgC] : List ChatMessage).reverse =
        getMessageHistoryUptoTokenLimit exTokenizer 30 [exMsgA, exMsgB, exMsgC] ++ rest) ∧
    ((getMessageHistoryUptoTokenLimit exTokenizer 30
        [exMsgA, exMsgB, exMsgC]).map (perMessageCost exTokenizer)).sum ≤ 30 ∧
    (∀ m rest,
      ([exMsgA, exMsgB, exMsgC] : List ChatMessage).reverse =
        getMessageHistoryUptoTokenLimit exTokenizer 30 [exMsgA, exMsgB, exMsgC] ++ m :: rest →
      30 < ((getMessageHistoryUptoTokenLimit exTokenizer 30
          [exMsgA, exMsgB, exMsgC]).map (perMessageCost exTokenizer)).sum
          + perMessageCost exTokenizer m)) :=
  ⟨by decide, cutoff_within_limit_and_maximal exTokenizer 30 [exMsgA, exMsgB, exMsgC] (by decide)⟩

/-- C2: at the failing input, a two message history well within the token
limit, the cutoff returns the messages most recent first, the reverse of the
chronological order, and the returned list is not a suffix of the stored
history: the source builds the result while iterating the reversed history
and never restores chronological order. -/
theorem cutoff_not_chronological_at_failing_input :
    getMessageHistoryUptoTokenLimit exTokenizer 100 [exMsgA, exMsgB] = [exMsgB, exMsgA] ∧
    ¬ ([exMsgB, exMsgA] <:+ [exMsgA, exMsgB]) := by
  constructor
  · decide
  · decide

theorem cleanTemporaryAux_spec :
    ∀ (l pre : List ChatMessage), (pre ++ l).Nodup →
      (∀ m ∈ pre, m.temporary = false) →
      cleanTemporaryAux ⟨pre ++ l, pre ++ l⟩ l =
        ⟨pre ++ l.filter (fun m => !m.temporary),
         pre ++ l.filter (fun m => !m.temporary)⟩ := by
  intro l
  induction l with
  | nil => intro pre _ _; simp [cleanTemporaryAux]
  | cons m rest ih =>
    intro pre hnd hpre
    by_cases hm : m.temporary
    · have hnotin : m ∉ pre := by
        intro hin
        have := (List.nodup_append.mp hnd).2.2
        exact this hin (List.mem_cons_self m rest)
      have herase : (pre ++ m :: rest).erase m = pre ++ rest := by
        rw [List.erase_append_right _ hnotin, List.erase_cons_head]
      have hnd2 : (pre ++ rest).Nodup := by
        refine List.Nodup.sublist ?_ hnd
        exact List.Sublist.append_left (List.sublist_cons_self m rest) pre
      have step : cleanTemporaryAux ⟨pre ++ m :: rest, pre ++ m :: rest⟩ (m :: rest) =
          cleanTemporaryAux ⟨pre ++ rest, pre ++ rest⟩ rest := by
        simp [cleanTemporaryAux, hm, removeMessage, herase]
      rw [step, ih pre hnd2 hpre]
      simp [hm]
    · have hpre2 : ∀ x ∈ pre ++ [m], x.temporary = false := by
        intro x hx
        rcases List.mem_append.mp hx with hx | hx
        · exact hpre x hx
        · simp only [List.mem_singleton] at hx
          subst hx
          exact Bool.eq_false_iff.mpr hm
      have hassoc : pre ++ m :: rest = (pre ++ [m]) ++ rest := by simp
      have step : cleanTemporaryAux ⟨pre ++ m :: rest, pre ++ m :: rest⟩ (m :: rest) =
          cleanTemporaryAux ⟨pre ++ m :: rest, pre ++ m :: rest⟩ rest := by
        simp [cleanTemporaryAux, hm]
      rw [step, hassoc, ih (pre ++ [m]) (hassoc ▸ hnd) hpre2]
      simp [hm]

/-- On a synchronized, duplicate free state, cleaning the temporary message
history keeps exactly the messages not marked temporary, in order, in the in
memory list and in the backend alike. -/
theorem cleanTemporary_filter (mh : List ChatMessage) (hnd : mh.Nodup) :
    cleanTemporaryMessageHistory ⟨mh, mh⟩ =
      ⟨mh.filter (fun m => !m.temporary), mh.filter (fun m => !m.temporary)⟩ := by
  have := cleanTemporaryAux_spec mh [] (by simpa using hnd) (by simp)
  simpa [cleanTemporaryMessageHistory] using this

/-- C6: on a synchronized state of each backend, inserting a message,
discarding the in memory list and loading from the backend reconstructs the
history that was in memory before discarding, order and content preserved:
the file backend appends to the persisted document, redis pushes onto the
key and restores order by the reverse in load, and the SQL backend appends a
row selected back by chat id. -/
theorem insert_then_load_round_trip
    (f : FileMemory) (doc : FileDoc) (r : RedisMemoryState) (q : SqlMemoryState)
    (m : ChatMessage)
    (hf : f.store = some doc) (hfs : doc.messages = f.messageHistory)
    (hr : r.stored.reverse = r.messageHistory)
    (hq : (q.rows.filter (fun row => row.chatId == q.chatId)).map SqlRow.message =
      q.messageHistory) :
    (∃ f2, fileInsertMessage f m = Except.ok f2 ∧
      (fileLoadMessageHistory
        { chatId := f2.chatId, messageHistory := [], store := f2.store }).messageHistory =
        f.messageHistory ++ [m]) ∧
    (redisLoadMessageHistory
        { messageHistory := [],
          stored := (redisInsertMessage r m).stored }).messageHistory =
      r.messageHistory ++ [m] ∧
    (sqlLoadMessageHistory
        { chatId := q.chatId, messageHistory := [],
          rows := (sqlInsertMessage q m).rows }).messageHistory =
      q.messageHistory ++ [m] := by
  obtain ⟨fc, fmh, fst⟩ := f
  obtain ⟨dc, dmsgs⟩ := doc
  simp only at hf hfs
  subst hf
  refine ⟨?_, ?_, ?_⟩
  · refine ⟨{ chatId := fc, messageHistory := fmh ++ [m],
              store := some { chatId := dc, messages := dmsgs ++ [m] } }, ?_, ?_⟩
    · simp [fileInsertMessage, fileInsertMessageBackend]
    · simp [fileLoadMessageHistory, hfs]
  · simp [redisLoadMessageHistory, redisInsertMessage, hr]
  · simp only [sqlLoadMessageHistory, sqlInsertMessage, List.filter_append]
    simp [hq]

/-- Witness for C6 at concrete synchronized states of the three backends. -/
theorem insert_then_load_round_trip_witness :
    exFileMemory.store = some { chatId := "c", messages := [exMsgA] } ∧
    ((∃ f2, fileInsertMessage exFileMemory exMsgB = Except.ok f2 ∧
      (fileLoadMessageHistory
        { chatId := f2.chatId, messageHistory := [], store := f2.store }).messageHistory =
        exFileMemory.messageHistory ++ [exMsgB]) ∧
    (redisLoadMessageHistory
        { messageHistory := [],
          stored := (redisInsertMessage exRedisMemory exMsgB).stored }).messageHistory =
      exRedisMemory.messageHistory ++ [exMsgB] ∧
    (sqlLoadMessageHistory
        { chatId := exSqlMemory.chatId, messageHistory := [],
          rows := (sqlInsertMessage exSqlMemory exMsgB).rows }).messageHistory =
      exSqlMemory.messageHistory ++ [exMsgB]) :=
  ⟨rfl, insert_then_load_round_trip exFileMemory { chatId := "c", messages := [exMsgA] }
    exRedisMemory exSqlMemory exMsgB rfl rfl (by decide) (by decide)⟩

/-- C7 counterexample: on the GCP backend holding an existing blob, the first
cleanup succeeds and deletes the blob, and a second cleanup raises the
NotFound error of the blob delete instead of succeeding. -/
theorem gcp_cleanup_twice_raises :
    gcpCleanup { messageHistory := [exMsgA],
                 blob := some { chatId := "c", messages := [exMsgA] } } =
      Except.ok { messageHistory := [], blob := none } ∧
    gcpCleanup { messageHistory := ([] : List ChatMessage),
                 blob := (none : Option FileDoc) } =
      Except.error BackendErr.notFound :=
  ⟨rfl, rfl⟩

/-- C7 amended: cleanup is idempotent on the backend state for the redis, SQL
and S3 backends, whose delete primitives tolerate an absent key; for the GCP
blob backend a successful cleanup leaves the blob absent and a second
cleanup raises the NotFound error of the blob delete, the store staying
absent. -/
theorem cleanup_idempotent_except_gcp :
    (∀ s : RedisMemoryState, redisCleanup (redisCleanup s) = redisCleanup s) ∧
    (∀ s : SqlMemoryState, sqlCleanup (sqlCleanup s) = sqlCleanup s) ∧
    (∀ s : S3MemoryState, s3Cleanup (s3Cleanup s) = s3Cleanup s) ∧
    (∀ s t, gcpCleanup s = Except.ok t →
      t.blob = none ∧ gcpCleanup t = Except.error BackendErr.notFound) := by
  refine ⟨fun s => rfl, fun s => ?_, fun s => rfl, fun s t h => ?_⟩
  · simp [sqlCleanup, List.filter_filter]
  · obtain ⟨mh, blob⟩ := s
    cases blob with
    | none => simp [gcpCleanup, gcpRemoveMemoryFile] at h
    | some doc =>
      simp only [gcpCleanup, gcpRemoveMemoryFile, Except.ok.injEq] at h
      subst h
      exact ⟨rfl, rfl⟩

/-- Witness for the amended C7 statement at a concrete GCP state with an
existing blob, together with a concrete idempotence instance. -/
theorem cleanup_idempotent_except_gcp_witness :
    redisCleanup (redisCleanup exRedisMemory) = redisCleanup exRedisMemory ∧
    (exGcpMemoryEmpty.blob = none ∧
      gcpCleanup exGcpMemoryEmpty = Except.error BackendErr.notFound) :=
  ⟨cleanup_idempotent_except_gcp.1 exRedisMemory,
    cleanup_idempotent_except_gcp.2.2.2 exGcpMemory exGcpMemoryEmpty rfl⟩

theorem retryLoopAux_all_fail (comp : Nat → Except ServiceUnavailable String)
    (errs : Nat → ServiceUnavailable)
    (hfail : ∀ i, comp i = Except.error (errs i)) :
    ∀ (a idx : Nat) (c : Option Nat),
      retryLoopAux comp (a + 1) idx c =
        (Except.error { cause := (errs (idx + a)).cause }, a + 1) := by
  intro a
  induction a with
  | zero =>
    intro idx c
    simp [retryLoopAux, hfail idx]
  | succ a ih =>
    intro idx c
    have step : retryLoopAux comp (a + 1 + 1) idx c =
        (let r := retryLoopAux comp (a + 1) (idx + 1) (errs idx).cause
         (r.1, r.2 + 1)) := by
      simp [retryLoopAux, hfail idx]
    rw [step, ih (idx + 1) (errs idx).cause]
    have : idx + 1 + a = idx + (a + 1) := by omega
    simp [this]

/-- C4: when every provider call raises the service unavailable error, the
retry loop invokes the provider exactly retries plus one times and then
raises a terminal ServiceUnavailableError wrapping the cause of the last
underlying failure. -/
theorem retry_exhaustion_invokes_n_plus_one
    (comp : Nat → Except ServiceUnavailable String)
    (errs : Nat → ServiceUnavailable) (retries : Nat)
    (hfail : ∀ i, comp i = Except.error (errs i)) :
    promptProviderWithRetry comp retries =
      (Except.error { cause := (errs retries).cause }, retries + 1) := by
  have := retryLoopAux_all_fail comp errs hfail retries 0 none
  simpa [promptProviderWithRetry] using this

/-- Witness for C4: a provider failing on every call with cause numbered by
the attempt, and a retry budget of 2, gives exactly 3 invocations and a
terminal error wrapping the cause of the third failure. -/
theorem retry_exhaustion_invokes_n_plus_one_witness :
    promptProviderWithRetry (fun i => Except.error { cause := some i }) 2 =
      (Except.error { cause := some 2 }, 3) :=
  retry_exhaustion_invokes_n_plus_one (fun i => Except.error { cause := some i })
    (fun i => { cause := some i }) 2 (fun _ => rfl)

theorem erase_append_fresh (l : List ChatMessage) (u : ChatMessage)
    (h : ∀ m ∈ l, m.msgId ≠ u.msgId) : (l ++ [u]).erase u = l := by
  have hu : u ∉ l := fun hin => h u hin rfl
  rw [List.erase_append_right _ hu, List.erase_cons_head, List.append_nil]

/-- C3 amended: when the provider call raises, retry exhaustion included, the
just inserted user message is removed from the in memory list and from the
backend before the exception propagates, so the history equals the history
before the call; the cutoff computation, however, runs before the try block,
so an exception raised there skips the rollback (see the counterexample on
the Chat variant, whose cutoff can raise). -/
theorem completion_rolls_back_user_message_on_provider_error
    (tk : Tokenizer) (tokenLimit tokenOffset : Int) (pid : String)
    (comp : Nat → Except ServiceUnavailable String) (retries : Nat)
    (prompt : String) (userId asstId : Nat) (s0 : MemoryState)
    (e : ServiceUnavailable)
    (herr : (promptProviderWithRetry comp retries).1 = Except.error e)
    (hfresh : ∀ m ∈ s0.messageHistory, m.msgId ≠ userId)
    (hfreshB : ∀ m ∈ s0.backend, m.msgId ≠ userId) :
    flowCompletion tk tokenLimit tokenOffset pid comp retries prompt userId asstId s0 =
      (Except.error e, s0) := by
  simp only [flowCompletion, herr]
  have h1 := erase_append_fresh s0.messageHistory
    { providerId := pid, content := prompt, role := Role.user, msgId := userId } hfresh
  have h2 := erase_append_fresh s0.backend
    { providerId := pid, content := prompt, role := Role.user, msgId := userId } hfreshB
  simp [removeMessage, insertMessage, h1, h2]

/-- Witness for the amended C3 statement: a provider that always fails, a
retry budget of 0 and a one message synchronized history; the failed call
returns the error and the unchanged state. -/
theorem completion_rolls_back_user_message_on_provider_error_witness :
    (promptProviderWithRetry (fun _ => Except.error { cause := some 7 }) 0).1 =
      Except.error { cause := some 7 } ∧
    flowCompletion exTokenizer 100 16 "chatgpt"
        (fun _ => Except.error { cause := some 7 }) 0 "hi" 9 10 ⟨[exMsgA], [exMsgA]⟩ =
      (Except.error { cause := some 7 }, ⟨[exMsgA], [exMsgA]⟩) :=
  ⟨rfl, completion_rolls_back_user_message_on_provider_error exTokenizer 100 16 "chatgpt"
    (fun _ => Except.error { cause := some 7 }) 0 "hi" 9 10 ⟨[exMsgA], [exMsgA]⟩
    { cause := some 7 } rfl (by decide) (by decide)⟩

/-- C3 counterexample: with the configurable token limit 16 and the default
token offset 16, the cutoff raises IndexError after the user message was
appended, and because the cutoff runs before the try block the user message
is not removed: the history after the failed call differs from the history
before it, which was empty. -/
theorem completion_no_rollback_on_cutoff_error :
    chatCompletion (chatgptNumTokens String.length 3) 16 16 "chatgpt" "hi" 5
        (Except.ok "unused") 6 [] =
      (Except.error ChatErr.indexError, [exUserMsgHi]) ∧
    ([exUserMsgHi] : List ChatMessage) ≠ [] := by
  constructor
  · rfl
  · decide

/-- C10: the cutoff loop is not total: with token limit 16, the default
token offset 16 and a single short message, the budget check fails for
every suffix, the empty one included, the loop pops the empty list, and
Chat.completion surfaces the untyped IndexError instead of returning. -/
theorem cutoff_raises_index_error_on_reachable_input :
    chatCutoffMessageHistory (chatgptNumTokens String.length 3) 16 16 [exUserMsgHi] =
      Except.error ChatErr.indexError ∧
    (chatCompletion (chatgptNumTokens String.length 3) 16 16 "chatgpt" "hi" 5
        (Except.ok "unused") 6 []).1 = Except.error ChatErr.indexError := by
  constructor
  · rfl
  · rfl

/-- C9: the default chat id factory formats the uuid4 function object
instead of calling it, so its value does not depend on the fresh uuid
stream: any two Flow instances constructed without an explicit chat id, in
one process, carry the same conversation id, the str form of the function
object. -/
theorem default_chat_id_shared_across_flows
    (p1 p2 : List String) (d1 d2 : Nat) :
    (mkFlowWithDefaultChatId p1 d1).chatId = (mkFlowWithDefaultChatId p2 d2).chatId ∧
    (mkFlowWithDefaultChatId p1 d1).chatId = pyStrOfFunctionObject uuid4FunctionObject :=
  ⟨rfl, rfl⟩

theorem tempSegment_cons (pid : String) (resp : Nat → String)
    (asstIds : Nat → Nat) (i k : Nat) :
    tempSegment pid resp asstIds i (k + 1) =
      assistantMsg pid (resp i) true (asstIds i) ::
        tempSegment pid resp asstIds (i + 1) k := by
  rw [tempSegment, List.range_succ_eq_map, List.map_cons, List.map_map]
  congr 1
  rw [tempSegment]
  apply List.map_congr_left
  intro j _
  have h : i + (j + 1) = i + 1 + j := by omega
  simp [Function.comp, h]

theorem tempSegment_filter_out (pid : String) (resp : Nat → String)
    (asstIds : Nat → Nat) :
    ∀ (k i : Nat),
      (tempSegment pid resp asstIds i k).filter (fun m => !m.temporary) = [] := by
  intro k
  induction k with
  | zero => intro i; simp [tempSegment]
  | succ k ih =>
    intro i
    rw [tempSegment_cons]
    simp [assistantMsg, ih (i + 1)]

theorem tempSegment_map_msgId (pid : String) (resp : Nat → String)
    (asstIds : Nat → Nat) (i k : Nat) :
    (tempSegment pid resp asstIds i k).map ChatMessage.msgId =
      (List.range k).map (fun j => asstIds (i + j)) := by
  simp [tempSegment, List.map_map, assistantMsg, Function.comp]

theorem appendBoth_insert (s : MemoryState) (x : ChatMessage)
    (l : List ChatMessage) :
    appendBoth (insertMessage s x) l = appendBoth s (x :: l) := by
  simp [appendBoth, insertMessage]

theorem autoFixerLoop_first_success {α : Type} (tk : Tokenizer)
    (tokenLimit tokenOffset : Int) (pid : String) (resp : Nat → String)
    (fixer : String → Except InvalidResponse α) (asstIds : Nat → Nat) (v : α) :
    ∀ (k i a : Nat) (p : String) (s : MemoryState),
      (∀ j, j < k → ∃ e, fixer (resp (i + j)) = Except.error e) →
      fixer (resp (i + k)) = Except.ok v →
      (autoFixerLoop tk tokenLimit tokenOffset pid resp fixer asstIds
          (a + k + 1) i p s).result = Except.ok (resp (i + k), v) ∧
      (autoFixerLoop tk tokenLimit tokenOffset pid resp fixer asstIds
          (a + k + 1) i p s).state =
        cleanTemporaryMessageHistory
          (insertMessage (appendBoth s (tempSegment pid resp asstIds i k))
            (assistantMsg pid (resp (i + k)) false (asstIds (i + k)))) := by
  intro k
  induction k with
  | zero =>
    intro i a p s _ hsucc
    rw [Nat.add_zero] at hsucc ⊢
    constructor
    · simp [autoFixerLoop, hsucc]
    · simp [autoFixerLoop, hsucc, tempSegment, appendBoth]
  | succ k ih =>
    intro i a p s hfail hsucc
    obtain ⟨e, he⟩ := hfail 0 (Nat.succ_pos k)
    rw [Nat.add_zero] at he
    have hfail2 : ∀ j, j < k → ∃ e2, fixer (resp (i + 1 + j)) = Except.error e2 := by
      intro j hj
      have := hfail (j + 1) (Nat.succ_lt_succ hj)
      have harith : i + (j + 1) = i + 1 + j := by omega
      rwa [harith] at this
    have hsucc2 : fixer (resp (i + 1 + k)) = Except.ok v := by
      have harith : i + (k + 1) = i + 1 + k := by omega
      rwa [harith] at hsucc
    obtain ⟨ihres, ihstate⟩ := ih (i + 1) a e.msg
      (insertMessage s (assistantMsg pid (resp i) true (asstIds i))) hfail2 hsucc2
    have hattempts : a + (k + 1) + 1 = (a + k + 1) + 1 := by omega
    have hstep :
        autoFixerLoop tk tokenLimit tokenOffset pid resp fixer asstIds
          (a + (k + 1) + 1) i p s =
        (let r := autoFixerLoop tk tokenLimit tokenOffset pid resp fixer asstIds
            (a + k + 1) (i + 1) e.msg
            (insertMessage s (assistantMsg pid (resp i) true (asstIds i)))
         { result := r.result, state := r.state,
           sent := getMessageHistoryUptoTokenLimit tk (tokenLimit - tokenOffset)
             s.messageHistory :: r.sent }) := by
      rw [hattempts]
      simp [autoFixerLoop, he]
    have harith2 : i + 1 + k = i + (k + 1) := by omega
    constructor
    · rw [hstep]
      simpa [harith2] using ihres
    · rw [hstep]
      simp only []
      rw [ihstate, appendBoth_insert, ← tempSegment_cons, harith2]

/-- C5 amended: when no message already in the history is marked temporary
and every inserted message carries a fresh distinct identifier, a run of
completion_with_auto_fixer whose first attempts fail validation and whose
next attempt succeeds leaves the history, in memory and backend alike, equal
to the messages present before the call plus the initial user prompt message
plus the final successful assistant message: on success every temporary
message is dropped from both copies. Temporary messages already present
before the call, left behind by an exhausted earlier run, are dropped too,
which is what the counterexample shows. -/
theorem auto_fixer_success_keeps_exactly_prompt_and_final
    {α : Type} (tk : Tokenizer) (tokenLimit tokenOffset : Int) (pid : String)
    (resp : Nat → String) (fixer : String → Except InvalidResponse α)
    (userId : Nat) (asstIds : Nat → Nat) (retries : Nat) (prompt : String)
    (s0 : MemoryState) (numFails : Nat) (v : α)
    (hN : numFails ≤ retries)
    (hfail : ∀ j, j < numFails → ∃ e, fixer (resp j) = Except.error e)
    (hsucc : fixer (resp numFails) = Except.ok v)
    (hsync : s0.backend = s0.messageHistory)
    (hnotemp : ∀ m ∈ s0.messageHistory, m.temporary = false)
    (hids : (s0.messageHistory.map ChatMessage.msgId ++
        userId :: (List.range (numFails + 1)).map asstIds).Nodup) :
    (flowCompletionWithAutoFixer tk tokenLimit tokenOffset pid resp fixer userId
        asstIds retries prompt s0).result = Except.ok (resp numFails, v) ∧
    (flowCompletionWithAutoFixer tk tokenLimit tokenOffset pid resp fixer userId
        asstIds retries prompt s0).state =
      ⟨s0.messageHistory ++
        [{ providerId := pid, content := prompt, role := Role.user, msgId := userId },
         assistantMsg pid (resp numFails) false (asstIds numFails)],
       s0.messageHistory ++
        [{ providerId := pid, content := prompt, role := Role.user, msgId := userId },
         assistantMsg pid (resp numFails) false (asstIds numFails)]⟩ := by
  obtain ⟨mh, bk⟩ := s0
  simp only at hsync hnotemp hids
  replace hsync := hsync.symm
  subst hsync
  set userMsg : ChatMessage :=
    { providerId := pid, content := prompt, role := Role.user, msgId := userId }
    with huser
  have hattempts : retries + 1 = (retries - numFails) + numFails + 1 := by omega
  have hfail0 : ∀ j, j < numFails → ∃ e, fixer (resp (0 + j)) = Except.error e := by
    intro j hj
    simpa using hfail j hj
  have hsucc0 : fixer (resp (0 + numFails)) = Except.ok v := by simpa using hsucc
  obtain ⟨hres, hstate⟩ := autoFixerLoop_first_success tk tokenLimit tokenOffset pid
    resp fixer asstIds v numFails 0 (retries - numFails) prompt
    (insertMessage ⟨mh, mh⟩ userMsg) hfail0 hsucc0
  have hwrap :
      flowCompletionWithAutoFixer tk tokenLimit tokenOffset pid resp fixer userId
        asstIds retries prompt ⟨mh, mh⟩ =
      autoFixerLoop tk tokenLimit tokenOffset pid resp fixer asstIds
        ((retries - numFails) + numFails + 1) 0 prompt (insertMessage ⟨mh, mh⟩ userMsg) := by
    rw [flowCompletionWithAutoFixer, ← hattempts]
  constructor
  · rw [hwrap, hres]
    simp
  · rw [hwrap, hstate]
    set temps := tempSegment pid resp asstIds 0 numFails with htemps
    set finalMsg := assistantMsg pid (resp (0 + numFails)) false (asstIds (0 + numFails))
      with hfinal
    have hpre : insertMessage (appendBoth (insertMessage ⟨mh, mh⟩ userMsg) temps) finalMsg =
        ⟨((mh ++ [userMsg]) ++ temps) ++ [finalMsg],
         ((mh ++ [userMsg]) ++ temps) ++ [finalMsg]⟩ := by
      simp [insertMessage, appendBoth]
    rw [hpre]
    have hmap : (((mh ++ [userMsg]) ++ temps) ++ [finalMsg]).map ChatMessage.msgId =
        mh.map ChatMessage.msgId ++
          userId :: (List.range (numFails + 1)).map asstIds := by
      simp only [List.map_append, htemps, tempSegment_map_msgId, List.range_succ,
        List.map_cons, List.map_nil]
      simp [huser, hfinal, assistantMsg]
    have hnd : (((mh ++ [userMsg]) ++ temps) ++ [finalMsg]).Nodup := by
      apply List.Nodup.of_map ChatMessage.msgId
      rw [hmap]
      exact hids
    rw [cleanTemporary_filter _ hnd]
    have hfilter : (((mh ++ [userMsg]) ++ temps) ++ [finalMsg]).filter
        (fun m => !m.temporary) = mh ++ [userMsg, finalMsg] := by
      simp only [List.filter_append, htemps, tempSegment_filter_out, List.append_nil]
      have h1 : mh.filter (fun m => !m.temporary) = mh := by
        apply List.filter_eq_self.mpr
        intro m hm
        simp [hnotemp m hm]
      have h2 : ([userMsg] : List ChatMessage).filter (fun m => !m.temporary) =
          [userMsg] := by simp [huser]
      have h3 : ([finalMsg] : List ChatMessage).filter (fun m => !m.temporary) =
          [finalMsg] := by simp [hfinal, assistantMsg]
      rw [h1, h2, h3]
      simp
    rw [hfilter]
    simp [hfinal]

/-- Witness for the amended C5 statement: one failed attempt, then success,
over a clean one message history; the final history holds the prior message,
the prompt and the successful response, in memory and backend alike. -/
theorem auto_fixer_success_keeps_exactly_prompt_and_final_witness :
    1 ≤ 1 ∧
    ((flowCompletionWithAutoFixer exTokenizer 100 16 "chatgpt" exResp exFixer 9
        (fun i => 20 + i) 1 "hello" ⟨[exMsgA], [exMsgA]⟩).result =
      Except.ok (exResp 1, "good") ∧
    (flowCompletionWithAutoFixer exTokenizer 100 16 "chatgpt" exResp exFixer 9
        (fun i => 20 + i) 1 "hello" ⟨[exMsgA], [exMsgA]⟩).state =
      ⟨[exMsgA] ++
        [{ providerId := "chatgpt", content := "hello", role := Role.user, msgId := 9 },
         assistantMsg "chatgpt" (exResp 1) false (20 + 1)],
       [exMsgA] ++
        [{ providerId := "chatgpt", content := "hello", role := Role.user, msgId := 9 },
         assistantMsg "chatgpt" (exResp 1) false (20 + 1)]⟩) :=
  ⟨Nat.le_refl 1,
    auto_fixer_success_keeps_exactly_prompt_and_final exTokenizer 100 16 "chatgpt"
      exResp exFixer 9 (fun i => 20 + i) 1 "hello" ⟨[exMsgA], [exMsgA]⟩ 1 "good"
      (Nat.le_refl 1)
      (fun j hj => ⟨{ msg := "please fix" }, by
        have hj0 : j = 0 := by omega
        subst hj0
        rfl⟩)
      rfl rfl (by decide) (by decide)⟩

/-- C5 counterexample: a temporary message already present before the call,
as an exhausted earlier auto fixer run leaves behind, is dropped by the
success cleanup too, so the history after the run does not retain all the
messages present before the call: it is the prompt and the response alone,
not the prior temporary message followed by them. -/
theorem auto_fixer_drops_preexisting_temporary :
    (flowCompletionWithAutoFixer exTokenizer 100 16 "chatgpt" (fun _ => "fine")
        (fun r => Except.ok r) 51 (fun i => 60 + i) 0 "q"
        ⟨[exTempOld], [exTempOld]⟩).state.messageHistory = [exUserQ, exAsstOk] ∧
    ([exUserQ, exAsstOk] : List ChatMessage) ≠ [exTempOld, exUserQ, exAsstOk] := by
  constructor
  · rfl
  · decide

/-- C8: at the failing input, the assistant message of the failed attempt is
inserted marked temporary, and the prompt variable is reassigned to the
string form of the InvalidResponse error, but that variable is never read
again by Flow.completion_with_auto_fixer: the messages sent to the provider
on the following attempt are the cutoff history, the temporary assistant
message and the initial user message, and the correction request please fix
appears in none of their contents. -/
theorem correction_prompt_not_sent_on_next_attempt :
    exC8Run.sent = [[exUserHello], [exBadAsst, exUserHello]] ∧
    exBadAsst.temporary = true ∧
    "please fix" ∉ ([exBadAsst, exUserHello].map ChatMessage.content) ∧
    exC8Run.result = Except.ok ("good", "good") := by
  refine ⟨rfl, rfl, by decide, rfl⟩

end Nynoflow

